import Mathlib

/-!
Verification development for the accounting-reconciliation core of the
telegram-task-bot repository.

The Python sources are shallowly embedded:

* Python strings are lists of characters (PyStr), so that all string
  operations are structural and computable by the kernel.
* Python float values appearing in this code are exact decimal literals
  (bank amounts).  They are modelled as rational numbers; during parsing a
  decimal is carried as a numerator together with a power-of-ten
  denominator (Dec), and converted to a rational at the boundary.
* The SQLite database is modelled as explicit record lists
  (RuleStore, AcctDB) with an autoincrement counter and a monotone clock
  standing for CURRENT_TIMESTAMP.
* Stateful Python functions become pure functions from state to state.
* The regular-expression engine used by the regex match type of rules is
  an uninterpreted boolean-valued parameter (Env.regexSearch), since only
  the exact and contains match types are exercised by the claims.
-/

namespace TaskBot

/-- Python strings, modelled as lists of characters. -/
abbrev PyStr := List Char

/-- Conversion from Lean string literals to the PyStr model. -/
def pys (s : String) : PyStr := s.toList

/-- ASCII digit test, modelling the regex class of digits as used on this
ASCII-only data. -/
def isAsciiDigit (c : Char) : Bool := 48 ≤ c.toNat && c.toNat ≤ 57

/-- Python whitespace as stripped by str.strip (space, tab, newline,
carriage return, vertical tab, form feed). -/
def isPySpace (c : Char) : Bool :=
  c.toNat = 32 || c.toNat = 9 || c.toNat = 10 || c.toNat = 13 || c.toNat = 11 || c.toNat = 12

/-- Python str.strip: drop whitespace from both ends. -/
def pyStrip (s : PyStr) : PyStr :=
  ((s.dropWhile isPySpace).reverse.dropWhile isPySpace).reverse

/-- Python str.lower restricted to ASCII letters (the data handled by the
bot is ASCII). -/
def pyLowerChar (c : Char) : Char :=
  if 65 ≤ c.toNat ∧ c.toNat ≤ 90 then Char.ofNat (c.toNat + 32) else c

/-- Python str.lower on a whole string. -/
def pyLower (s : PyStr) : PyStr := s.map pyLowerChar

/-- Boolean list-prefix test used to define substring containment. -/
def isPrefixL : PyStr → PyStr → Bool
  | [], _ => true
  | _ :: _, [] => false
  | a :: as, b :: bs => a = b && isPrefixL as bs

/-- Python substring containment (needle in haystack). -/
def containsSub (needle : PyStr) : PyStr → Bool
  | [] => needle.isEmpty
  | c :: rest => isPrefixL needle (c :: rest) || containsSub needle rest

/-- Scanning worker for lastSplit.  The fuel argument makes the recursion
structural (every step consumes at least one character, so fuel equal to
the length of the string is always enough). -/
def lastSplitGo (sep : PyStr) : Nat → PyStr → PyStr
  | 0, s => s
  | _ + 1, [] => []
  | fuel + 1, c :: rest =>
      if containsSub sep (c :: rest) then
        if isPrefixL sep (c :: rest) then lastSplitGo sep fuel (List.drop (sep.length - 1) rest)
        else lastSplitGo sep fuel rest
      else c :: rest

/-- The final component of Python s.split(sep) (that is, split(sep) indexed
by -1): the suffix of s after the last non-overlapping occurrence of sep,
or s itself when sep does not occur. -/
def lastSplit (sep s : PyStr) : PyStr := lastSplitGo sep s.length s

/-- Python text.split(newline): cut a string at newline characters. -/
def splitOnNL : PyStr → List PyStr
  | [] => [[]]
  | c :: rest =>
      match splitOnNL rest with
      | [] => if c = '\n' then [[], []] else [[c]]
      | l :: ls => if c = '\n' then [] :: l :: ls else (c :: l) :: ls

/-- The value of the digit characters of a string read in base ten. -/
def digitsToNat (cs : PyStr) : Nat := cs.foldl (fun n c => n * 10 + (c.toNat - 48)) 0

/-- An exact decimal: numerator and a power-of-ten denominator.  Python
float values produced by parsing in this program are such decimals; they
are kept in this form so that the kernel can compute with them, and are
converted to rationals at the boundary. -/
structure Dec where
  num : Int
  den : Nat
deriving DecidableEq

/-- The rational value of a decimal. -/
def Dec.val (d : Dec) : ℚ := (d.num : ℚ) / (d.den : ℚ)

/-- The digit body of a float literal: all characters are digits or dots,
at most one dot, at least one digit.  The value is read off by joining the
digits before and after the dot. -/
def pyFloatBody (sign : Int) (body : PyStr) : Option Dec :=
  if body.all (fun c => isAsciiDigit c || c = '.')
      && (body.filter (fun c => c = '.')).length ≤ 1
      && body.any isAsciiDigit then
    some ⟨sign * (digitsToNat (body.takeWhile (fun c => c ≠ '.') ++
                    (body.dropWhile (fun c => c ≠ '.')).drop 1) : Int),
          10 ^ ((body.dropWhile (fun c => c ≠ '.')).drop 1).length⟩
  else none

/-- Model of the Python float() builtin restricted to the character set it
receives in parse_portuguese_number (digits, dot, minus): an optional sign
followed by digits with at most one decimal point and at least one digit;
anything else raises ValueError, modelled as none. -/
def pyFloat (cs : PyStr) : Option Dec :=
  match cs with
  | [] => none
  | c :: rest =>
      pyFloatBody (if c = '-' then -1 else 1)
        (if c = '-' ∨ c = '+' then rest else c :: rest)

/-- The character strip of parse_portuguese_number: the regex substitution
keeping only digits, dot, comma and minus. -/
def cleanedOf (t : PyStr) : PyStr :=
  t.filter (fun c => isAsciiDigit c || c = '.' || c = ',' || c = '-')

/-- Dot removal (thousands separators) followed by turning the comma into
the decimal point. -/
def commaToDot (cs : PyStr) : PyStr :=
  (cs.filter (fun c => c ≠ '.')).map (fun c => if c = ',' then '.' else c)

/-- Embeds parse_portuguese_number (src/bot/accounting/pdf_parser.py,
lines 29-44): empty-or-whitespace input is not parseable; negativity comes
from a leading minus sign or parenthesis; characters outside digits, dot,
comma and minus are stripped; dots (thousands separators) are removed and
the comma becomes the decimal point; the result is parsed as a float and
the detected sign is applied to a positive value. -/
def parse_portuguese_number (text : PyStr) : Option ℚ :=
  if pyStrip text = [] then none
  else
    let t := pyStrip text
    let negative := (t.take 1 = ['-']) || (t.take 1 = ['('])
    if cleanedOf t = [] then none
    else
      match pyFloat (commaToDot (cleanedOf t)) with
      | none => none
      | some v => some (if negative && decide (0 < v.num) then (Dec.mk (-v.num) v.den).val else v.val)

/-! ## Data model (src/bot/accounting/models.py) -/

/-- Embeds the Transaction dataclass (models.py, lines 9-19).  Confidence
is one of the strings unknown, rule, ai, user. -/
structure Transaction where
  date : PyStr
  description : PyStr
  value : ℚ
  type : PyStr
  row_index : Int
  original_notes : PyStr := []
  category : Option PyStr := none
  note : Option PyStr := none
  confidence : PyStr := pys "unknown"
deriving DecidableEq

/-- Embeds the CategoryRule dataclass (models.py, lines 54-62). -/
structure CategoryRule where
  pattern : PyStr
  category : PyStr
  note_template : PyStr := []
  match_type : PyStr := pys "contains"
  confidence : ℚ := 1
  match_count : Int := 0
  id : Option Int := none
deriving DecidableEq

/-- Embeds the ReconciliationResult dataclass (models.py, lines 22-34),
without the parse timestamp (wall-clock time, irrelevant to the claims). -/
structure ReconciliationResult where
  filename : PyStr
  bank_balance : Option ℚ
  reconciled_balance : Option ℚ
  company_balance : Option ℚ
  difference : Option ℚ
  debit_transactions : List Transaction := []
  credit_transactions : List Transaction := []
  company_debits : List Transaction := []
  company_credits : List Transaction := []
deriving DecidableEq

/-- Embeds the all_transactions property (models.py, lines 36-43). -/
def ReconciliationResult.all_transactions (r : ReconciliationResult) : List Transaction :=
  r.debit_transactions ++ r.credit_transactions ++ r.company_debits ++ r.company_credits

/-- Embeds the uncategorized property (models.py, lines 45-47). -/
def ReconciliationResult.uncategorized (r : ReconciliationResult) : List Transaction :=
  r.all_transactions.filter (fun t => t.confidence = pys "unknown")

/-- Embeds the categorized property (models.py, lines 49-51). -/
def ReconciliationResult.categorized (r : ReconciliationResult) : List Transaction :=
  r.all_transactions.filter (fun t => t.confidence ≠ pys "unknown")

/-! ## Rule store (src/bot/accounting/storage.py, category_rules table) -/

/-- The category_rules table: rows in insertion order, plus the
autoincrement counter.  Every stored row carries an assigned id. -/
structure RuleStore where
  rules : List CategoryRule := []
  next_id : Int := 1
deriving DecidableEq

/-- Comparator realising ORDER BY match_count DESC, id ASC of
get_all_rules (storage.py, lines 165-176). -/
def ruleLE (a b : CategoryRule) : Bool :=
  decide (b.match_count < a.match_count)
    || (decide (a.match_count = b.match_count) && decide (a.id.getD 0 ≤ b.id.getD 0))

/-- Embeds get_all_rules (storage.py, lines 165-176): all stored rules
ordered by descending match_count, ties by ascending id. -/
def get_all_rules (db : RuleStore) : List CategoryRule :=
  List.insertionSort (fun a b => ruleLE a b = true) db.rules

/-- Embeds add_rule (storage.py, lines 179-186): insert a fresh rule row
with the next autoincrement id and return it. -/
def add_rule (db : RuleStore) (pattern category note m_type : PyStr) :
    RuleStore × CategoryRule :=
  let r : CategoryRule :=
    { pattern := pattern, category := category, note_template := note,
      match_type := m_type, id := some db.next_id }
  ({ rules := db.rules ++ [r], next_id := db.next_id + 1 }, r)

/-- Embeds increment_rule_match (storage.py, lines 189-192). -/
def increment_rule_match (db : RuleStore) (rule_id : Int) : RuleStore :=
  { db with
    rules := db.rules.map (fun r =>
      if r.id = some rule_id then { r with match_count := r.match_count + 1 } else r) }

/-! ## Categorizer (src/bot/accounting/categorizer.py) -/

/-- External context: the regular-expression search of the regex match
type (re.search with IGNORECASE; a malformed pattern yields no match),
left uninterpreted, and the category catalog from default_rules.json,
which ships outside the source tree. -/
structure Env where
  regexSearch : PyStr → PyStr → Bool
  categories : List (PyStr × PyStr) := []

/-- Embeds get_category_display (categorizer.py, lines 33-35): the display
name of a category key, or the key itself when absent from the catalog. -/
def get_category_display (env : Env) (key : PyStr) : PyStr :=
  match env.categories.lookup key with
  | some d => d
  | none => key

/-- Embeds the rule matcher (categorizer.py, lines 38-51): case-insensitive
equality for exact, case-insensitive substring for contains, uninterpreted
case-insensitive search for regex, no match for any other match type. -/
def matchRule (env : Env) (description : PyStr) (rule : CategoryRule) : Bool :=
  let descLower := pyLower description
  let patternLower := pyLower rule.pattern
  if rule.match_type = pys "exact" then descLower = patternLower
  else if rule.match_type = pys "contains" then containsSub patternLower descLower
  else if rule.match_type = pys "regex" then env.regexSearch rule.pattern description
  else false

/-- Embeds categorize_transaction (categorizer.py, lines 54-68): the first
matching rule of the given list sets category, note and confidence rule
and bumps the match count of that rule in the store; with no match the
confidence is set to unknown.  The rules argument defaults in Python to
get_all_rules of the store. -/
def categorize_transaction (env : Env) (t : Transaction) (rules : List CategoryRule)
    (db : RuleStore) : Transaction × RuleStore :=
  match rules.find? (fun r => matchRule env t.description r) with
  | some r =>
      ({ t with category := some r.category, note := some r.note_template,
                confidence := pys "rule" },
       match r.id with
       | some rid => increment_rule_match db rid
       | none => db)
  | none => ({ t with confidence := pys "unknown" }, db)

/-- Embeds apply_user_category (categorizer.py, lines 87-103): set the
category, the note (or the display name of the category) and confidence
user; when asked to save a rule and the description is non-empty, add a
contains rule for the raw description unless a stored rule already has a
case-insensitively equal pattern. -/
def apply_user_category (env : Env) (t : Transaction) (category note : PyStr)
    (save_rule : Bool) (db : RuleStore) : Transaction × RuleStore :=
  let noteVal := if note = [] then get_category_display env category else note
  let t2 := { t with category := some category, note := some noteVal,
                     confidence := pys "user" }
  if save_rule && decide (t2.description ≠ []) then
    let existing := get_all_rules db
    let alreadyExists := existing.any (fun r => pyLower r.pattern = pyLower t2.description)
    if alreadyExists then (t2, db)
    else (t2, (add_rule db t2.description category noteVal (pys "contains")).1)
  else (t2, db)

/-! ## AI fallback (src/bot/accounting/ai_categorizer.py) -/

/-- One parsed entry of the structured AI response (a JSON object with
index, category and note keys; a missing key is none). -/
structure AIResultItem where
  index : Option Int
  category : Option PyStr
  note : Option PyStr
deriving DecidableEq

/-- Embeds the application of one parsed response entry inside
_categorize_batch (ai_categorizer.py, lines 84-89): when the index is
present and in bounds, the transaction at that index gets the category
(default outros), the note (default empty) and confidence ai. -/
def applyAIResultItem (txns : List Transaction) (item : AIResultItem) :
    List Transaction :=
  match item.index with
  | none => txns
  | some idx =>
      if 0 ≤ idx ∧ idx < (txns.length : Int) then
        match txns.get? idx.toNat with
        | some t =>
            txns.set idx.toNat
              { t with category := some (item.category.getD (pys "outros")),
                       note := some (item.note.getD []),
                       confidence := pys "ai" }
        | none => txns
      else txns

/-- Embeds the response-application loop of _categorize_batch
(ai_categorizer.py, lines 84-89) over a whole parsed result array. -/
def apply_ai_results (txns : List Transaction) (results : List AIResultItem) :
    List Transaction :=
  results.foldl applyAIResultItem txns

/-! ## Session storage (src/bot/accounting/storage.py, sessions and
transactions tables) -/

/-- A row of the transactions table (storage.py schema lines 43-54 with
the migration columns section, row_index and original_notes). -/
structure TxnRow where
  id : Nat
  session_id : PyStr
  date : PyStr
  description : PyStr
  value : ℚ
  type : PyStr
  section_label : PyStr
  category : PyStr
  note : PyStr
  categorization_method : PyStr
  row_index : Int
  original_notes : PyStr
deriving DecidableEq

/-- A row of the sessions table (storage.py schema lines 32-41 with the
migration columns for balances, current_index and reviewed_count).
created_at is a monotone tick standing for CURRENT_TIMESTAMP. -/
structure SessionRow where
  id : PyStr
  filename : PyStr
  total_transactions : Int := 0
  auto_categorized : Int := 0
  needs_review : Int := 0
  status : PyStr := pys "processing"
  created_at : Nat
  completed_at : Option Nat := none
  bank_balance : Option ℚ := none
  reconciled_balance : Option ℚ := none
  company_balance : Option ℚ := none
  difference : Option ℚ := none
  current_index : Int := 0
  reviewed_count : Int := 0
deriving DecidableEq

/-- The accounting database: the two tables, the autoincrement counter of
the transactions table and the clock producing created_at values. -/
structure AcctDB where
  sessions : List SessionRow := []
  transactions : List TxnRow := []
  next_txn_id : Nat := 1
  clock : Nat := 0
deriving DecidableEq

/-- Integrity of a database state as produced by the storage layer:
transaction ids are below the autoincrement counter and strictly increase
along the table, and session creation ticks are below the clock and
strictly increase along the table. -/
def AcctDB.WF (db : AcctDB) : Prop :=
  (∀ r ∈ db.transactions, r.id < db.next_txn_id) ∧
  db.transactions.Pairwise (fun a b => a.id < b.id) ∧
  (∀ s ∈ db.sessions, s.created_at < db.clock) ∧
  db.sessions.Pairwise (fun a b => a.created_at < b.created_at)

/-- Embeds save_session (storage.py, lines 195-203): INSERT OR REPLACE a
session row; every unnamed column takes its schema default, in particular
status processing. -/
def save_session (db : AcctDB) (session_id filename : PyStr)
    (total auto review : Int) : AcctDB :=
  let sess : SessionRow :=
    { id := session_id, filename := filename, total_transactions := total,
      auto_categorized := auto, needs_review := review,
      created_at := db.clock }
  { db with
    sessions := db.sessions.filter (fun s => s.id ≠ session_id) ++ [sess],
    clock := db.clock + 1 }

/-- Embeds complete_session (storage.py, lines 205-208): set status
complete and stamp completed_at. -/
def complete_session (db : AcctDB) (session_id : PyStr) : AcctDB :=
  { db with
    sessions := db.sessions.map (fun s =>
      if s.id = session_id then
        { s with status := pys "complete", completed_at := some db.clock }
      else s),
    clock := db.clock + 1 }

/-- Embeds save_transaction (storage.py, lines 211-219): append one row;
section, row_index and original_notes take their column defaults. -/
def save_transaction (db : AcctDB) (session_id date description : PyStr)
    (value : ℚ) (txn_type category note method : PyStr) : AcctDB :=
  let row : TxnRow :=
    { id := db.next_txn_id, session_id := session_id, date := date,
      description := description, value := value, type := txn_type,
      section_label := [], category := category, note := note,
      categorization_method := method, row_index := 0, original_notes := [] }
  { db with transactions := db.transactions ++ [row],
            next_txn_id := db.next_txn_id + 1 }

/-- The row written for one transaction by save_full_session
(storage.py, lines 253-263): a missing category or note is stored as the
empty string, and the confidence goes to the categorization_method
column. -/
def txnRowOf (session_id : PyStr) (rid : Nat) (sec : PyStr)
    (t : Transaction) : TxnRow :=
  { id := rid, session_id := session_id, date := t.date,
    description := t.description, value := t.value, type := t.type,
    section_label := sec, category := t.category.getD [],
    note := t.note.getD [], categorization_method := t.confidence,
    row_index := t.row_index, original_notes := t.original_notes }

/-- The section_map of save_full_session (storage.py, lines 246-251): the
four transaction groups tagged with their section labels, in fixed
order. -/
def sectionedTxns (result : ReconciliationResult) : List (PyStr × Transaction) :=
  result.debit_transactions.map (fun t => (pys "debit_bank", t)) ++
  result.credit_transactions.map (fun t => (pys "credit_bank", t)) ++
  result.company_debits.map (fun t => (pys "debit_company", t)) ++
  result.company_credits.map (fun t => (pys "credit_company", t))

/-- The transaction INSERT loop of save_full_session: consecutive
autoincrement ids starting from the given counter. -/
def insertRows (session_id : PyStr) (rid : Nat) :
    List (PyStr × Transaction) → List TxnRow
  | [] => []
  | (sec, t) :: rest => txnRowOf session_id rid sec t :: insertRows session_id (rid + 1) rest

/-- The session row written by save_full_session (storage.py, lines
229-240): status active, summary counters, balances and review state. -/
def savedSessionRow (db : AcctDB) (session_id filename : PyStr)
    (result : ReconciliationResult) (current_index reviewed_count : Int) : SessionRow :=
  { id := session_id, filename := filename,
    total_transactions := result.all_transactions.length,
    auto_categorized := result.categorized.length,
    needs_review := result.uncategorized.length,
    status := pys "active", created_at := db.clock,
    bank_balance := result.bank_balance,
    reconciled_balance := result.reconciled_balance,
    company_balance := result.company_balance,
    difference := result.difference,
    current_index := current_index, reviewed_count := reviewed_count }

/-- Embeds save_full_session (storage.py, lines 225-266): INSERT OR
REPLACE the session row with status active, delete the stored transactions
of that session, and insert all transactions of the result tagged with
their section. -/
def save_full_session (db : AcctDB) (session_id filename : PyStr)
    (result : ReconciliationResult) (current_index reviewed_count : Int) : AcctDB :=
  let sess := savedSessionRow db session_id filename result current_index reviewed_count
  let kept := db.transactions.filter (fun r => r.session_id ≠ session_id)
  let tagged := sectionedTxns result
  { sessions := db.sessions.filter (fun s => s.id ≠ session_id) ++ [sess],
    transactions := kept ++ insertRows session_id db.next_txn_id tagged,
    next_txn_id := db.next_txn_id + tagged.length,
    clock := db.clock + 1 }

/-- SELECT with ORDER BY created_at DESC LIMIT 1 over the active sessions:
fold keeping the row with the latest creation tick. -/
def pickLater (acc : Option SessionRow) (s : SessionRow) : Option SessionRow :=
  match acc with
  | none => some s
  | some b => if b.created_at < s.created_at then some s else some b

/-- The session row selected by load_latest_session (storage.py, lines
273-275): the most recently created row with status active. -/
def latestActive (sessions : List SessionRow) : Option SessionRow :=
  (sessions.filter (fun s => s.status = pys "active")).foldl pickLater none

/-- The in-memory transaction rebuilt from a stored row by
load_latest_session (storage.py, lines 297-308): empty-string category and
note become absent, an empty categorization_method becomes confidence
unknown. -/
def txnOfRow (tr : TxnRow) : Transaction :=
  { date := tr.date, description := tr.description, value := tr.value,
    type := tr.type, row_index := tr.row_index,
    original_notes := tr.original_notes,
    category := if tr.category = [] then none else some tr.category,
    note := if tr.note = [] then none else some tr.note,
    confidence := if tr.categorization_method = [] then pys "unknown"
                  else tr.categorization_method }

/-- The section dispatch loop of load_latest_session (storage.py, lines
292-317): distribute the rows over the four groups by section label; rows
with any other label are dropped. -/
def groupRows : List TxnRow →
    List Transaction × List Transaction × List Transaction × List Transaction
  | [] => ([], [], [], [])
  | tr :: rest =>
      let (d, c, cd, cc) := groupRows rest
      let t := txnOfRow tr
      if tr.section_label = pys "debit_bank" then (t :: d, c, cd, cc)
      else if tr.section_label = pys "credit_bank" then (d, t :: c, cd, cc)
      else if tr.section_label = pys "debit_company" then (d, c, t :: cd, cc)
      else if tr.section_label = pys "credit_company" then (d, c, cd, t :: cc)
      else (d, c, cd, cc)

/-- The dictionary returned by load_latest_session (storage.py, lines
335-342), matching the context.user_data session format. -/
structure SessionDict where
  id : PyStr
  filename : PyStr
  result : ReconciliationResult
  pending_review : List Transaction
  current_index : Int
  reviewed_count : Int
deriving DecidableEq

/-- Embeds load_latest_session (storage.py, lines 269-342): pick the most
recently created session with status active (none when there is none),
fetch its transaction rows ordered by id (none when there are no rows),
regroup them into a ReconciliationResult and recompute the pending-review
list as the transactions whose confidence is unknown. -/
def load_latest_session (db : AcctDB) : Option SessionDict :=
  match latestActive db.sessions with
  | none => none
  | some row =>
      let txn_rows :=
        List.insertionSort (fun (a b : TxnRow) => a.id ≤ b.id)
          (db.transactions.filter (fun r => r.session_id = row.id))
      if txn_rows = [] then none
      else
        let g := groupRows txn_rows
        let result : ReconciliationResult :=
          { filename := row.filename, bank_balance := row.bank_balance,
            reconciled_balance := row.reconciled_balance,
            company_balance := row.company_balance,
            difference := row.difference,
            debit_transactions := g.1, credit_transactions := g.2.1,
            company_debits := g.2.2.1, company_credits := g.2.2.2 }
        some { id := row.id, filename := row.filename, result := result,
               pending_review :=
                 result.all_transactions.filter (fun t => t.confidence = pys "unknown"),
               current_index := row.current_index,
               reviewed_count := row.reviewed_count }

/-- The SQL predicate ABS(value - v) < 0.01 of update_transaction_category,
written on numerator and denominator so that the kernel can evaluate it;
the lemma absLtHundredth_iff below identifies it with the rational
statement. -/
def absLtHundredth (a b : ℚ) : Bool :=
  100 * (a.num * (b.den : Int) - b.num * (a.den : Int)).natAbs < a.den * b.den

/-- Embeds update_transaction_category (storage.py, lines 345-354): every
row of the session matching date, description and value within epsilon
gets the new category and note and categorization_method user. -/
def update_transaction_category (db : AcctDB) (session_id date description : PyStr)
    (value : ℚ) (category note : PyStr) : AcctDB :=
  { db with
    transactions := db.transactions.map (fun r =>
      if r.session_id = session_id ∧ r.date = date ∧ r.description = description ∧
          absLtHundredth r.value value then
        { r with category := category, note := note,
                 categorization_method := pys "user" }
      else r) }

/-- Embeds update_session_review_state (storage.py, lines 357-364). -/
def update_session_review_state (db : AcctDB) (session_id : PyStr)
    (current_index reviewed_count : Int) : AcctDB :=
  { db with
    sessions := db.sessions.map (fun s =>
      if s.id = session_id then
        { s with current_index := current_index, reviewed_count := reviewed_count }
      else s) }

/-! ## Review handlers (src/bot/handlers/accounting.py) -/

/-- Embeds cmd_acct_skip (handlers/accounting.py, lines 133-144): with no
session or an empty pending list nothing changes; otherwise the cursor
advances by one.  No other session field and no transaction is touched. -/
def cmd_acct_skip (session : SessionDict) : SessionDict :=
  if session.pending_review = [] then session
  else { session with current_index := session.current_index + 1 }

/-- Embeds the skip branch of _handle_category_callback
(handlers/accounting.py, lines 403-443, callback data acct:idx:skip): an
out-of-range index returns unchanged; otherwise the cursor moves to
idx + 1, reviewed_count is incremented and the new review state is
persisted.  The targeted transaction is not modified. -/
def handle_category_callback_skip (db : AcctDB) (session : SessionDict)
    (txn_idx : Nat) : SessionDict × AcctDB :=
  if session.pending_review.length ≤ txn_idx then (session, db)
  else
    let s2 : SessionDict :=
      { session with current_index := (txn_idx : Int) + 1,
                     reviewed_count := session.reviewed_count + 1 }
    (s2, update_session_review_state db session.id s2.current_index s2.reviewed_count)

/-! ## Balance fallback pass (src/bot/accounting/pdf_parser.py,
lines 331-344) -/

/-- One line of the final balance-fallback loop of
parse_reconciliation_pdf: each of the four balances that is still missing
and whose literal marker occurs in the stripped line is assigned the parse
of the stripped suffix after the last occurrence of its marker. -/
def balanceFallbackLine (res : ReconciliationResult) (line : PyStr) :
    ReconciliationResult :=
  let line_s := pyStrip line
  let res :=
    if res.bank_balance = none ∧ containsSub (pys "(1)") line_s then
      { res with bank_balance :=
          parse_portuguese_number (pyStrip (lastSplit (pys "(1)") line_s)) }
    else res
  let res :=
    if res.reconciled_balance = none ∧ containsSub (pys "(1+2-3+4-5)") line_s then
      { res with reconciled_balance :=
          parse_portuguese_number (pyStrip (lastSplit (pys "(1+2-3+4-5)") line_s)) }
    else res
  let res :=
    if res.company_balance = none ∧ containsSub (pys "(7)") line_s then
      { res with company_balance :=
          parse_portuguese_number (pyStrip (lastSplit (pys "(7)") line_s)) }
    else res
  if res.difference = none ∧ containsSub (pys "(6-7)") line_s then
    { res with difference :=
        parse_portuguese_number (pyStrip (lastSplit (pys "(6-7)") line_s)) }
  else res

/-- Embeds the final balance-fallback pass of parse_reconciliation_pdf
(pdf_parser.py, lines 331-344): it runs only when the bank balance or the
reconciled balance is still missing, and then scans every line of the full
document text. -/
def balance_fallback_pass (res : ReconciliationResult) (full_text : PyStr) :
    ReconciliationResult :=
  if res.bank_balance = none ∨ res.reconciled_balance = none then
    (splitOnNL full_text).foldl balanceFallbackLine res
  else res


/-! ## Supporting lemmas for the number parser -/

lemma commaToDot_no_digit {t : PyStr} (h : ∀ c ∈ t, isAsciiDigit c = false) :
    ∀ c ∈ commaToDot (cleanedOf t), isAsciiDigit c = false := by
  intro c hc
  simp only [commaToDot, cleanedOf, List.mem_map, List.mem_filter] at hc
  obtain ⟨c0, ⟨⟨hc0t, _⟩, _⟩, rfl⟩ := hc
  by_cases h0 : c0 = ','
  · simp only [h0, if_pos rfl]
    decide
  · simp only [if_neg h0]
    exact h c0 hc0t

lemma pyFloatBody_none_of_no_digit (sign : Int) (body : PyStr)
    (h : ∀ c ∈ body, isAsciiDigit c = false) : pyFloatBody sign body = none := by
  have hany : body.any isAsciiDigit = false := by
    rw [List.any_eq_false]
    intro x hx
    simp [h x hx]
  simp [pyFloatBody, hany]

lemma pyFloat_none_of_no_digit (cs : PyStr) (h : ∀ c ∈ cs, isAsciiDigit c = false) :
    pyFloat cs = none := by
  cases cs with
  | nil => rfl
  | cons c rest =>
      simp only [pyFloat]
      apply pyFloatBody_none_of_no_digit
      intro x hx
      by_cases hc : c = '-' ∨ c = '+'
      · rw [if_pos hc] at hx
        exact h x (List.mem_cons_of_mem _ hx)
      · rw [if_neg hc] at hx
        exact h x hx

/-- C8: parse_portuguese_number turns the locale string 1.234,56 into
1234.56, -12,30 into -12.30, the parenthesised (12,30) into -12.30, maps
the empty and the whitespace-only string to the not-parseable result, and
yields the not-parseable result whenever no digit remains after stripping
the characters outside the numeric set.  The Lean embedding is a total
function into an option type, so the never-an-exception part of the claim
holds by construction. -/
theorem c8_parse_portuguese_number :
    parse_portuguese_number (pys "1.234,56") = some 1234.56 ∧
    parse_portuguese_number (pys "-12,30") = some (-12.30) ∧
    parse_portuguese_number (pys "(12,30)") = some (-12.30) ∧
    parse_portuguese_number (pys "") = none ∧
    parse_portuguese_number (pys "   ") = none ∧
    ∀ s : PyStr, (∀ c ∈ pyStrip s, isAsciiDigit c = false) →
      parse_portuguese_number s = none := by
  refine ⟨?_, ?_, ?_, rfl, rfl, ?_⟩
  · rw [show parse_portuguese_number (pys "1.234,56") = some (Dec.mk 123456 100).val from rfl]
    norm_num [Dec.val]
  · rw [show parse_portuguese_number (pys "-12,30") = some (Dec.mk (-1230) 100).val from rfl]
    norm_num [Dec.val]
  · rw [show parse_portuguese_number (pys "(12,30)") = some (Dec.mk (-1230) 100).val from rfl]
    norm_num [Dec.val]
  · intro s h
    unfold parse_portuguese_number
    by_cases h1 : pyStrip s = []
    · simp [h1]
    · have hf : pyFloat (commaToDot (cleanedOf (pyStrip s))) = none :=
        pyFloat_none_of_no_digit _ (commaToDot_no_digit h)
      by_cases h2 : cleanedOf (pyStrip s) = []
      · simp [h1, h2]
      · simp [h1, h2, hf]

/-- C8 witness: a concrete digit-free input evaluates to the not-parseable
result through the final conjunct of the theorem. -/
theorem c8_witness : parse_portuguese_number (pys "abc") = none :=
  c8_parse_portuguese_number.2.2.2.2.2 (pys "abc") (by decide)

/-! ## C4: the final balance-fallback pass -/

/-- SQL-style coalescing of two optional values: the first when present,
else the second. -/
def orQ (a b : Option ℚ) : Option ℚ :=
  match a with
  | some v => some v
  | none => b

/-- The value the fallback loop assigns to one balance: scanning the lines
in order, the first line whose stripped text contains the marker and whose
suffix after the last occurrence of the marker parses to a number. -/
def firstMarkerValue (marker : PyStr) : List PyStr → Option ℚ
  | [] => none
  | l :: ls =>
      let l_s := pyStrip l
      if containsSub marker l_s then
        match parse_portuguese_number (pyStrip (lastSplit marker l_s)) with
        | some v => some v
        | none => firstMarkerValue marker ls
      else firstMarkerValue marker ls

lemma bfl_bank (res : ReconciliationResult) (line : PyStr) :
    (balanceFallbackLine res line).bank_balance =
      if res.bank_balance = none ∧ containsSub (pys "(1)") (pyStrip line) then
        parse_portuguese_number (pyStrip (lastSplit (pys "(1)") (pyStrip line)))
      else res.bank_balance := by
  simp only [balanceFallbackLine]
  split_ifs <;> simp_all

lemma bfl_reconciled (res : ReconciliationResult) (line : PyStr) :
    (balanceFallbackLine res line).reconciled_balance =
      if res.reconciled_balance = none ∧ containsSub (pys "(1+2-3+4-5)") (pyStrip line) then
        parse_portuguese_number (pyStrip (lastSplit (pys "(1+2-3+4-5)") (pyStrip line)))
      else res.reconciled_balance := by
  simp only [balanceFallbackLine]
  split_ifs <;> simp_all

lemma bfl_company (res : ReconciliationResult) (line : PyStr) :
    (balanceFallbackLine res line).company_balance =
      if res.company_balance = none ∧ containsSub (pys "(7)") (pyStrip line) then
        parse_portuguese_number (pyStrip (lastSplit (pys "(7)") (pyStrip line)))
      else res.company_balance := by
  simp only [balanceFallbackLine]
  split_ifs <;> simp_all

lemma bfl_difference (res : ReconciliationResult) (line : PyStr) :
    (balanceFallbackLine res line).difference =
      if res.difference = none ∧ containsSub (pys "(6-7)") (pyStrip line) then
        parse_portuguese_number (pyStrip (lastSplit (pys "(6-7)") (pyStrip line)))
      else res.difference := by
  simp only [balanceFallbackLine]
  split_ifs <;> simp_all

lemma bfl_frame (res : ReconciliationResult) (line : PyStr) :
    (balanceFallbackLine res line).filename = res.filename ∧
    (balanceFallbackLine res line).debit_transactions = res.debit_transactions ∧
    (balanceFallbackLine res line).credit_transactions = res.credit_transactions ∧
    (balanceFallbackLine res line).company_debits = res.company_debits ∧
    (balanceFallbackLine res line).company_credits = res.company_credits := by
  simp only [balanceFallbackLine]
  split_ifs <;> simp_all

lemma foldl_bfl_bank (lines : List PyStr) :
    ∀ res : ReconciliationResult,
      (lines.foldl balanceFallbackLine res).bank_balance =
        orQ res.bank_balance (firstMarkerValue (pys "(1)") lines) := by
  induction lines with
  | nil => intro res; cases h : res.bank_balance <;> simp [orQ, firstMarkerValue, h]
  | cons l ls ih =>
      intro res
      rw [List.foldl_cons, ih]
      cases hb : res.bank_balance with
      | some v =>
          have : (balanceFallbackLine res l).bank_balance = some v := by
            rw [bfl_bank, hb]; simp
          rw [this]
          simp [orQ]
      | none =>
          rw [bfl_bank, hb]
          simp only [true_and, if_pos, firstMarkerValue]
          by_cases hc : containsSub (pys "(1)") (pyStrip l) = true
          · simp only [hc, if_pos, and_true]
            cases hp : parse_portuguese_number (pyStrip (lastSplit (pys "(1)") (pyStrip l))) with
            | some v => simp [hp, orQ]
            | none => simp [hp, orQ]
          · simp [hc, orQ]

lemma foldl_bfl_reconciled (lines : List PyStr) :
    ∀ res : ReconciliationResult,
      (lines.foldl balanceFallbackLine res).reconciled_balance =
        orQ res.reconciled_balance (firstMarkerValue (pys "(1+2-3+4-5)") lines) := by
  induction lines with
  | nil => intro res; cases h : res.reconciled_balance <;> simp [orQ, firstMarkerValue, h]
  | cons l ls ih =>
      intro res
      rw [List.foldl_cons, ih]
      cases hb : res.reconciled_balance with
      | some v =>
          have : (balanceFallbackLine res l).reconciled_balance = some v := by
            rw [bfl_reconciled, hb]; simp
          rw [this]
          simp [orQ]
      | none =>
          rw [bfl_reconciled, hb]
          simp only [true_and, if_pos, firstMarkerValue]
          by_cases hc : containsSub (pys "(1+2-3+4-5)") (pyStrip l) = true
          · simp only [hc, if_pos, and_true]
            cases hp : parse_portuguese_number (pyStrip (lastSplit (pys "(1+2-3+4-5)") (pyStrip l))) with
            | some v => simp [hp, orQ]
            | none => simp [hp, orQ]
          · simp [hc, orQ]

lemma foldl_bfl_company (lines : List PyStr) :
    ∀ res : ReconciliationResult,
      (lines.foldl balanceFallbackLine res).company_balance =
        orQ res.company_balance (firstMarkerValue (pys "(7)") lines) := by
  induction lines with
  | nil => intro res; cases h : res.company_balance <;> simp [orQ, firstMarkerValue, h]
  | cons l ls ih =>
      intro res
      rw [List.foldl_cons, ih]
      cases hb : res.company_balance with
      | some v =>
          have : (balanceFallbackLine res l).company_balance = some v := by
            rw [bfl_company, hb]; simp
          rw [this]
          simp [orQ]
      | none =>
          rw [bfl_company, hb]
          simp only [true_and, if_pos, firstMarkerValue]
          by_cases hc : containsSub (pys "(7)") (pyStrip l) = true
          · simp only [hc, if_pos, and_true]
            cases hp : parse_portuguese_number (pyStrip (lastSplit (pys "(7)") (pyStrip l))) with
            | some v => simp [hp, orQ]
            | none => simp [hp, orQ]
          · simp [hc, orQ]

lemma foldl_bfl_difference (lines : List PyStr) :
    ∀ res : ReconciliationResult,
      (lines.foldl balanceFallbackLine res).difference =
        orQ res.difference (firstMarkerValue (pys "(6-7)") lines) := by
  induction lines with
  | nil => intro res; cases h : res.difference <;> simp [orQ, firstMarkerValue, h]
  | cons l ls ih =>
      intro res
      rw [List.foldl_cons, ih]
      cases hb : res.difference with
      | some v =>
          have : (balanceFallbackLine res l).difference = some v := by
            rw [bfl_difference, hb]; simp
          rw [this]
          simp [orQ]
      | none =>
          rw [bfl_difference, hb]
          simp only [true_and, if_pos, firstMarkerValue]
          by_cases hc : containsSub (pys "(6-7)") (pyStrip l) = true
          · simp only [hc, if_pos, and_true]
            cases hp : parse_portuguese_number (pyStrip (lastSplit (pys "(6-7)") (pyStrip l))) with
            | some v => simp [hp, orQ]
            | none => simp [hp, orQ]
          · simp [hc, orQ]

lemma foldl_bfl_frame (lines : List PyStr) :
    ∀ res : ReconciliationResult,
      (lines.foldl balanceFallbackLine res).filename = res.filename ∧
      (lines.foldl balanceFallbackLine res).debit_transactions = res.debit_transactions ∧
      (lines.foldl balanceFallbackLine res).credit_transactions = res.credit_transactions ∧
      (lines.foldl balanceFallbackLine res).company_debits = res.company_debits ∧
      (lines.foldl balanceFallbackLine res).company_credits = res.company_credits := by
  induction lines with
  | nil => intro res; simp
  | cons l ls ih =>
      intro res
      rw [List.foldl_cons]
      have h1 := ih (balanceFallbackLine res l)
      have h2 := bfl_frame res l
      exact ⟨h1.1.trans h2.1, (h1.2.1).trans h2.2.1, (h1.2.2.1).trans h2.2.2.1,
             (h1.2.2.2.1).trans h2.2.2.2.1, (h1.2.2.2.2).trans h2.2.2.2.2⟩

/-- C4 (amended): the final full-document pass of parse_reconciliation_pdf
runs only when the bank balance or the reconciled balance is still
missing after page scanning (not when any of the four is missing); when it
runs, each balance that is present is kept, and each missing balance is
filled from the first line containing its literal marker with a parseable
numeric suffix, the markers being (1), (1+2-3+4-5), (7) and (6-7) - not
(6-3).  The transaction groups and the filename are untouched. -/
theorem c4_balance_fallback (res : ReconciliationResult) (text : PyStr) :
    (res.bank_balance ≠ none ∧ res.reconciled_balance ≠ none →
      balance_fallback_pass res text = res) ∧
    (res.bank_balance = none ∨ res.reconciled_balance = none →
      (balance_fallback_pass res text).bank_balance =
        orQ res.bank_balance (firstMarkerValue (pys "(1)") (splitOnNL text)) ∧
      (balance_fallback_pass res text).reconciled_balance =
        orQ res.reconciled_balance (firstMarkerValue (pys "(1+2-3+4-5)") (splitOnNL text)) ∧
      (balance_fallback_pass res text).company_balance =
        orQ res.company_balance (firstMarkerValue (pys "(7)") (splitOnNL text)) ∧
      (balance_fallback_pass res text).difference =
        orQ res.difference (firstMarkerValue (pys "(6-7)") (splitOnNL text)) ∧
      (balance_fallback_pass res text).filename = res.filename ∧
      (balance_fallback_pass res text).debit_transactions = res.debit_transactions ∧
      (balance_fallback_pass res text).credit_transactions = res.credit_transactions ∧
      (balance_fallback_pass res text).company_debits = res.company_debits ∧
      (balance_fallback_pass res text).company_credits = res.company_credits) := by
  constructor
  · intro h
    have hcond : ¬ (res.bank_balance = none ∨ res.reconciled_balance = none) := by
      rcases h with ⟨h1, h2⟩
      intro hor
      rcases hor with h | h
      · exact h1 h
      · exact h2 h
    simp [balance_fallback_pass, hcond]
  · intro h
    have : balance_fallback_pass res text = (splitOnNL text).foldl balanceFallbackLine res := by
      simp [balance_fallback_pass, h]
    rw [this]
    have hfr := foldl_bfl_frame (splitOnNL text) res
    exact ⟨foldl_bfl_bank _ res, foldl_bfl_reconciled _ res, foldl_bfl_company _ res,
           foldl_bfl_difference _ res, hfr.1, hfr.2.1, hfr.2.2.1, hfr.2.2.2.1, hfr.2.2.2.2⟩

/-- Result with the bank and reconciled balances present but the company
balance and the difference still missing. -/
def c4res : ReconciliationResult :=
  { filename := [], bank_balance := some 1, reconciled_balance := some 2,
    company_balance := none, difference := none }

/-- Result with all four balances missing. -/
def c4resAll : ReconciliationResult :=
  { filename := [], bank_balance := none, reconciled_balance := none,
    company_balance := none, difference := none }

/-- C4 counterexample to the claim as stated: with the company balance and
the difference missing (but bank and reconciled present) the pass does not
run at all, although the document text carries a parseable (7) marker
line; and with everything missing, a line with the marker (6-3) named by
the claim fills nothing, while the marker (6-7) actually used by the code
does fill the difference. -/
theorem c4_counterexample :
    c4res.company_balance = none ∧
    parse_portuguese_number (pyStrip (lastSplit (pys "(7)") (pyStrip (pys "(7) 5,00")))) = some 5 ∧
    balance_fallback_pass c4res (pys "(7) 5,00") = c4res ∧
    (balance_fallback_pass c4resAll (pys "(6-3) 1,00")).difference = none ∧
    (balance_fallback_pass c4resAll (pys "(6-7) 1,00")).difference = some 1 := by
  refine ⟨rfl, ?_, rfl, rfl, ?_⟩
  · rw [show parse_portuguese_number (pyStrip (lastSplit (pys "(7)") (pyStrip (pys "(7) 5,00"))))
          = some (Dec.mk 500 100).val from rfl]
    norm_num [Dec.val]
  · rw [show (balance_fallback_pass c4resAll (pys "(6-7) 1,00")).difference
          = some (Dec.mk 100 100).val from rfl]
    norm_num [Dec.val]

/-- C4 witness: the amended theorem applied to a concrete document whose
text contains a (1) marker line, with the trigger hypothesis discharged. -/
theorem c4_witness :
    (balance_fallback_pass c4resAll (pys "(1) 2,50")).bank_balance =
      orQ c4resAll.bank_balance (firstMarkerValue (pys "(1)") (splitOnNL (pys "(1) 2,50"))) :=
  ((c4_balance_fallback c4resAll (pys "(1) 2,50")).2 (Or.inl rfl)).1

/-! ## C1: confidence under the automated passes -/

lemma get?_set_self {α : Type} : ∀ (l : List α) (n : Nat) (x : α), n < l.length →
    (l.set n x).get? n = some x
  | _ :: _, 0, _, _ => rfl
  | _ :: l, n + 1, x, h => get?_set_self l n x (by simpa using h)
  | [], _, _, h => absurd h (by simp)

/-- C1 (amended): the rule pass and the AI pass overwrite the confidence
unconditionally.  categorize_transaction sets confidence rule whenever a
rule of the given list matches and resets it to unknown otherwise,
whatever the prior confidence was - including user; applying a parsed AI
entry at a valid index sets confidence ai unconditionally.  A user
confidence survives in the program only because the handlers feed these
passes nothing but still-unknown transactions. -/
theorem c1_confidence_overwrite :
    (∀ (env : Env) (t : Transaction) (rules : List CategoryRule) (db : RuleStore),
      (categorize_transaction env t rules db).1.confidence =
        if rules.any (fun r => matchRule env t.description r) then pys "rule"
        else pys "unknown") ∧
    (∀ (txns : List Transaction) (item : AIResultItem) (i : Int),
      item.index = some i → 0 ≤ i → i < (txns.length : Int) →
      ((applyAIResultItem txns item).get? i.toNat).map Transaction.confidence =
        some (pys "ai")) := by
  constructor
  · intro env t rules db
    cases hf : rules.find? (fun r => matchRule env t.description r) with
    | none =>
        have hany : rules.any (fun r => matchRule env t.description r) = false := by
          rw [List.any_eq_false]
          intro r hr
          exact List.find?_eq_none.mp hf r hr
        simp [categorize_transaction, hf, hany]
    | some r =>
        have hany : rules.any (fun r => matchRule env t.description r) = true :=
          List.any_eq_true.mpr ⟨r, List.mem_of_find?_eq_some hf, List.find?_some hf⟩
        simp [categorize_transaction, hf, hany]
  · intro txns item i hidx h0 hlt
    have hn : i.toNat < txns.length := by omega
    have hne : txns.get? i.toNat ≠ none := by
      rw [ne_eq, List.get?_eq_none]
      omega
    cases ht : txns.get? i.toNat with
    | none => exact absurd ht hne
    | some t =>
        simp only [applyAIResultItem, hidx]
        rw [if_pos ⟨h0, hlt⟩, ht]
        rw [get?_set_self _ _ _ hn]
        rfl

/-- Transaction already reviewed by the user (confidence user with a
category and a note). -/
def c1txn : Transaction :=
  { date := [], description := pys "x", value := 1, type := pys "debit",
    row_index := 0, category := some (pys "alimentacao"),
    note := some (pys "manual"), confidence := pys "user" }

/-- Environment with an uninterpreted regex engine that never matches and
an empty category catalog. -/
def envF : Env := { regexSearch := fun _ _ => false }

/-- A stored rule matching every description containing x. -/
def c1rule : CategoryRule :=
  { pattern := pys "x", category := pys "transportes",
    note_template := pys "auto", match_type := pys "contains",
    match_count := 0, id := some 1 }

/-- An AI response entry targeting index zero. -/
def c1item : AIResultItem :=
  { index := some 0, category := some (pys "outros"), note := some [] }

/-- C1 counterexample to the claim as stated: a transaction with
confidence user keeps neither its confidence nor its category through the
passes.  With an empty rule list the rule pass resets the confidence to
unknown; with a matching rule it overwrites category, note and confidence
to the rule values; and a parsed AI entry applied to it stamps confidence
ai. -/
theorem c1_counterexample :
    c1txn.confidence = pys "user" ∧
    (categorize_transaction envF c1txn [] ⟨[], 1⟩).1.confidence = pys "unknown" ∧
    (categorize_transaction envF c1txn [c1rule] ⟨[c1rule], 2⟩).1.confidence = pys "rule" ∧
    (categorize_transaction envF c1txn [c1rule] ⟨[c1rule], 2⟩).1.category =
      some (pys "transportes") ∧
    ((applyAIResultItem [c1txn] c1item).get? 0).map Transaction.confidence =
      some (pys "ai") := by
  exact ⟨rfl, rfl, by decide, by decide, by decide⟩

/-- C1 witness: the AI part of the amended theorem applied at index zero
of a one-element batch. -/
theorem c1_witness :
    ((applyAIResultItem [c1txn] c1item).get? (Int.toNat 0)).map Transaction.confidence =
      some (pys "ai") :=
  c1_confidence_overwrite.2 [c1txn] c1item 0 rfl (by decide) (by decide)

/-! ## C7: idempotence of the user-correction learning step -/

/-- The store component of apply_user_category in closed form: no change
for an empty description or an existing case-insensitively equal pattern,
otherwise one new contains rule for the raw description. -/
lemma apply_user_category_store (env : Env) (t : Transaction) (c n : PyStr)
    (db : RuleStore) :
    (apply_user_category env t c n true db).2 =
      if t.description = [] then db
      else if (get_all_rules db).any
          (fun r => pyLower r.pattern = pyLower t.description) then db
      else (add_rule db t.description c
              (if n = [] then get_category_display env c else n) (pys "contains")).1 := by
  by_cases hd : t.description = []
  · simp [apply_user_category, hd]
  · by_cases hA : (get_all_rules db).any
        (fun r => pyLower r.pattern = pyLower t.description) = true
    · simp [apply_user_category, hd, hA]
    · simp [apply_user_category, hd, hA]

/-- C7: applying the user-correction learning step twice with the same
description leaves the rule store of the second application unchanged; in
particular no duplicate rule is created, because the second application
finds the pattern stored (or already present) by the first. -/
theorem c7_apply_user_category_idempotent (env : Env) (t1 t2 : Transaction)
    (c1 n1 c2 n2 : PyStr) (db : RuleStore)
    (hdesc : t2.description = t1.description) :
    (apply_user_category env t2 c2 n2 true
        (apply_user_category env t1 c1 n1 true db).2).2 =
      (apply_user_category env t1 c1 n1 true db).2 := by
  rw [apply_user_category_store, apply_user_category_store, hdesc]
  by_cases hd : t1.description = []
  · simp [hd]
  · simp only [if_neg hd]
    by_cases hA : (get_all_rules db).any
        (fun r => pyLower r.pattern = pyLower t1.description) = true
    · simp only [if_pos hA]
    · simp only [if_neg hA]
      have hthere : (get_all_rules (add_rule db t1.description c1
            (if n1 = [] then get_category_display env c1 else n1) (pys "contains")).1).any
          (fun r => pyLower r.pattern = pyLower t1.description) = true := by
        apply List.any_eq_true.mpr
        refine ⟨(add_rule db t1.description c1
            (if n1 = [] then get_category_display env c1 else n1) (pys "contains")).2, ?_, ?_⟩
        · rw [get_all_rules, List.mem_insertionSort]
          simp [add_rule]
        · simp [add_rule]
      rw [if_pos hthere]

/-- C7 witness: the idempotence theorem at a concrete transaction and an
empty store, the same-description hypothesis discharged by reflexivity. -/
theorem c7_witness :
    (apply_user_category envF c1txn (pys "software") [] true
        (apply_user_category envF c1txn (pys "software") [] true ⟨[], 1⟩).2).2 =
      (apply_user_category envF c1txn (pys "software") [] true ⟨[], 1⟩).2 :=
  c7_apply_user_category_idempotent envF c1txn c1txn (pys "software") []
    (pys "software") [] ⟨[], 1⟩ rfl

/-! ## C9: rule ordering -/

/-- Strictly-before relation of the rule ordering: larger match_count
first, ties broken by smaller id. -/
def ruleLT (a b : CategoryRule) : Prop :=
  b.match_count < a.match_count ∨
    (a.match_count = b.match_count ∧ a.id.getD 0 < b.id.getD 0)

lemma ruleLE_total (a b : CategoryRule) : ruleLE a b = true ∨ ruleLE b a = true := by
  simp only [ruleLE, Bool.or_eq_true, Bool.and_eq_true, decide_eq_true_eq]
  omega

lemma ruleLE_trans (a b c : CategoryRule) (h1 : ruleLE a b = true)
    (h2 : ruleLE b c = true) : ruleLE a c = true := by
  simp only [ruleLE, Bool.or_eq_true, Bool.and_eq_true, decide_eq_true_eq] at h1 h2 ⊢
  omega

lemma ruleLT_of_le_ne (a b : CategoryRule) (hle : ruleLE a b = true)
    (hne : a.id.getD 0 ≠ b.id.getD 0) : ruleLT a b := by
  simp only [ruleLE, Bool.or_eq_true, Bool.and_eq_true, decide_eq_true_eq] at hle
  simp only [ruleLT]
  omega

lemma get_all_rules_perm (db : RuleStore) : (get_all_rules db).Perm db.rules :=
  List.perm_insertionSort _ db.rules

lemma get_all_rules_sorted (db : RuleStore) :
    (get_all_rules db).Pairwise (fun a b => ruleLE a b = true) := by
  haveI hT : IsTotal CategoryRule (fun a b => ruleLE a b = true) := ⟨ruleLE_total⟩
  haveI hR : IsTrans CategoryRule (fun a b => ruleLE a b = true) :=
    ⟨fun a b c => ruleLE_trans a b c⟩
  exact List.sorted_insertionSort _ db.rules

/-- C9: get_all_rules returns a permutation of the stored rules sorted by
descending match_count with ties by ascending id, and
categorize_transaction run on that list applies the matching rule that is
strictly least in this order among all matching rules (first match wins);
hence a rule with a larger match_count is tried before one with a smaller
match_count regardless of insertion order, and among equal match_counts
the lower id is tried first. -/
theorem c9_rule_ordering (db : RuleStore) :
    (get_all_rules db).Perm db.rules ∧
    (get_all_rules db).Pairwise (fun a b => ruleLE a b = true) ∧
    ∀ (env : Env) (t : Transaction),
      db.rules.Pairwise (fun a b => a.id.getD 0 ≠ b.id.getD 0) →
      ∀ r ∈ db.rules, matchRule env t.description r = true →
      ∃ r0 ∈ db.rules, matchRule env t.description r0 = true ∧
        (∀ r1 ∈ db.rules, matchRule env t.description r1 = true →
          r1 = r0 ∨ ruleLT r0 r1) ∧
        (categorize_transaction env t (get_all_rules db) db).1.category = some r0.category ∧
        (categorize_transaction env t (get_all_rules db) db).1.note = some r0.note_template ∧
        (categorize_transaction env t (get_all_rules db) db).1.confidence = pys "rule" := by
  refine ⟨get_all_rules_perm db, get_all_rules_sorted db, ?_⟩
  intro env t hids r hr hmatch
  have hperm := get_all_rules_perm db
  have hrs : r ∈ get_all_rules db := (List.mem_insertionSort _).mpr hr
  cases hf : (get_all_rules db).find? (fun x => matchRule env t.description x) with
  | none => exact absurd hmatch (List.find?_eq_none.mp hf r hrs)
  | some r0 =>
      have hr0m : matchRule env t.description r0 = true := List.find?_some hf
      have hr0mem : r0 ∈ db.rules :=
        (List.mem_insertionSort _).mp (List.mem_of_find?_eq_some hf)
      refine ⟨r0, hr0mem, hr0m, ?_, by simp [categorize_transaction, hf],
        by simp [categorize_transaction, hf], by simp [categorize_transaction, hf]⟩
      intro r1 hr1 hm1
      obtain ⟨-, as, bs, hsplit, hbefore⟩ := List.find?_eq_some.mp hf
      have hids2 : (get_all_rules db).Pairwise (fun a b => a.id.getD 0 ≠ b.id.getD 0) :=
        (hperm.pairwise_iff (fun h => Ne.symm h)).mpr hids
      have hr1s : r1 ∈ get_all_rules db := (List.mem_insertionSort _).mpr hr1
      rw [hsplit] at hr1s
      rcases List.mem_append.mp hr1s with hin | hin
      · exact absurd hm1 (by simpa using hbefore r1 hin)
      · rcases List.mem_cons.mp hin with heq | hin2
        · exact Or.inl heq
        · have hsort := get_all_rules_sorted db
          rw [hsplit] at hsort hids2
          have hle : ruleLE r0 r1 = true :=
            ((List.pairwise_cons.mp (List.pairwise_append.mp hsort).2.1).1) r1 hin2
          have hne : r0.id.getD 0 ≠ r1.id.getD 0 :=
            ((List.pairwise_cons.mp (List.pairwise_append.mp hids2).2.1).1) r1 hin2
          exact Or.inr (ruleLT_of_le_ne r0 r1 hle hne)

/-- A rule with a small match count inserted first. -/
def c9ruleA : CategoryRule :=
  { pattern := pys "a", category := pys "catA", note_template := pys "na",
    match_type := pys "contains", match_count := 2, id := some 1 }

/-- A rule with a large match count inserted second. -/
def c9ruleB : CategoryRule :=
  { pattern := pys "b", category := pys "catB", note_template := pys "nb",
    match_type := pys "contains", match_count := 10, id := some 2 }

/-- The store with the low-count rule first in insertion order. -/
def c9db : RuleStore := { rules := [c9ruleA, c9ruleB], next_id := 3 }

/-- A transaction whose description both rules match. -/
def c9txn : Transaction :=
  { date := [], description := pys "ab", value := 1, type := pys "debit",
    row_index := 0 }

/-- C9 witness: on a concrete store where the rule with match_count 10 was
inserted after the rule with match_count 2, the ordering theorem applies
and the winning rule exists as stated. -/
theorem c9_witness :
    ∃ r0 ∈ c9db.rules, matchRule envF c9txn.description r0 = true ∧
      (∀ r1 ∈ c9db.rules, matchRule envF c9txn.description r1 = true →
        r1 = r0 ∨ ruleLT r0 r1) ∧
      (categorize_transaction envF c9txn (get_all_rules c9db) c9db).1.category =
        some r0.category ∧
      (categorize_transaction envF c9txn (get_all_rules c9db) c9db).1.note =
        some r0.note_template ∧
      (categorize_transaction envF c9txn (get_all_rules c9db) c9db).1.confidence =
        pys "rule" :=
  (c9_rule_ordering c9db).2.2 envF c9txn (by decide) c9ruleB (by decide) (by decide)

/-! ## C5: effect of the skip action -/

/-- A plain still-unknown transaction under review. -/
def c5txn : Transaction :=
  { date := pys "2025-05-16", description := pys "pending one", value := 1,
    type := pys "debit", row_index := 0 }

/-- An empty parse result used as the session result in concrete review
states. -/
def c5res : ReconciliationResult :=
  { filename := pys "f.pdf", bank_balance := none, reconciled_balance := none,
    company_balance := none, difference := none }

/-- An active review session whose cursor points at its single pending
transaction. -/
def c5session : SessionDict :=
  { id := pys "s1", filename := pys "f.pdf", result := c5res,
    pending_review := [c5txn], current_index := 0, reviewed_count := 0 }

/-- The empty database. -/
def db0 : AcctDB := {}

/-- C5 (amended): the keyboard skip callback advances the cursor to the
targeted index plus one (one step when the cursor points at that index),
increments reviewed_count by one, and mutates neither the pending list,
the result, nor any stored transaction row; the /acct_skip command
advances the cursor by one but leaves reviewed_count - and everything
else - unchanged. -/
theorem c5_skip_effects :
    (∀ (db : AcctDB) (s : SessionDict) (txn_idx : Nat),
      txn_idx < s.pending_review.length →
      (handle_category_callback_skip db s txn_idx).1.current_index = (txn_idx : Int) + 1 ∧
      (s.current_index = (txn_idx : Int) →
        (handle_category_callback_skip db s txn_idx).1.current_index = s.current_index + 1) ∧
      (handle_category_callback_skip db s txn_idx).1.reviewed_count = s.reviewed_count + 1 ∧
      (handle_category_callback_skip db s txn_idx).1.pending_review = s.pending_review ∧
      (handle_category_callback_skip db s txn_idx).1.result = s.result ∧
      (handle_category_callback_skip db s txn_idx).2.transactions = db.transactions) ∧
    (∀ s : SessionDict, s.pending_review ≠ [] →
      cmd_acct_skip s = { s with current_index := s.current_index + 1 }) := by
  constructor
  · intro db s txn_idx h
    have hn : ¬ s.pending_review.length ≤ txn_idx := by omega
    refine ⟨?_, ?_, ?_, ?_, ?_, ?_⟩ <;>
      simp [handle_category_callback_skip, hn, update_session_review_state]
    intro he
    rw [he]
  · intro s h
    simp [cmd_acct_skip, h]

/-- C5 counterexample to the claim as stated: skipping through the
/acct_skip command advances the cursor but does not increment
reviewed_count, although the session has a pending transaction under the
cursor. -/
theorem c5_counterexample :
    c5session.pending_review ≠ [] ∧
    c5session.current_index = 0 ∧
    (cmd_acct_skip c5session).current_index = c5session.current_index + 1 ∧
    (cmd_acct_skip c5session).reviewed_count = c5session.reviewed_count ∧
    c5session.reviewed_count + 1 ≠ c5session.reviewed_count := by
  exact ⟨by decide, rfl, rfl, rfl, by decide⟩

/-- C5 witness: the amended theorem at the concrete session with the
cursor on index zero. -/
theorem c5_witness :
    (handle_category_callback_skip db0 c5session 0).1.current_index = ((0 : Nat) : Int) + 1 ∧
    (c5session.current_index = ((0 : Nat) : Int) →
      (handle_category_callback_skip db0 c5session 0).1.current_index =
        c5session.current_index + 1) ∧
    (handle_category_callback_skip db0 c5session 0).1.reviewed_count =
      c5session.reviewed_count + 1 ∧
    (handle_category_callback_skip db0 c5session 0).1.pending_review =
      c5session.pending_review ∧
    (handle_category_callback_skip db0 c5session 0).1.result = c5session.result ∧
    (handle_category_callback_skip db0 c5session 0).2.transactions = db0.transactions :=
  c5_skip_effects.1 db0 c5session 0 (by decide)

/-! ## C6: frame effect of update_transaction_category -/

lemma absLtHundredth_iff (a b : ℚ) : absLtHundredth a b = true ↔ |a - b| < 1/100 := by
  rw [absLtHundredth, decide_eq_true_eq]
  have ha : ((a.den : ℚ)) ≠ 0 := by
    exact_mod_cast a.den_nz
  have hb : ((b.den : ℚ)) ≠ 0 := by
    exact_mod_cast b.den_nz
  have hsub : a - b = ((a.num * (b.den : ℤ) - b.num * (a.den : ℤ) : ℤ) : ℚ) /
      (((a.den : ℤ) * (b.den : ℤ) : ℤ) : ℚ) := by
    conv_lhs => rw [← Rat.num_div_den a, ← Rat.num_div_den b]
    rw [div_sub_div _ _ ha hb]
    push_cast
    ring_nf
  have hD : (0:ℚ) < (((a.den : ℤ) * (b.den : ℤ) : ℤ) : ℚ) := by
    have := a.pos
    have := b.pos
    positivity
  rw [hsub, abs_div, abs_of_pos hD, div_lt_div_iff hD (by norm_num : (0:ℚ) < 100)]
  rw [show |((a.num * (b.den : ℤ) - b.num * (a.den : ℤ) : ℤ) : ℚ)| =
      (((a.num * (b.den : ℤ) - b.num * (a.den : ℤ)).natAbs : ℤ) : ℚ) by
    push_cast [Int.cast_natAbs]
    norm_num]
  constructor
  · intro h
    have h2 : ((100 * (a.num * (b.den : ℤ) - b.num * (a.den : ℤ)).natAbs : ℤ) : ℚ) <
        (((a.den : ℤ) * (b.den : ℤ) : ℤ) : ℚ) := by
      exact_mod_cast h
    push_cast at h2 ⊢
    linarith
  · intro h
    have h2 : ((100 * (a.num * (b.den : ℤ) - b.num * (a.den : ℤ)).natAbs : ℤ) : ℚ) <
        (((a.den : ℤ) * (b.den : ℤ) : ℤ) : ℚ) := by
      push_cast at h ⊢
      linarith
    exact_mod_cast h2

/-- C6 (amended): update_transaction_category rewrites category, note and
confidence (to user) on every stored transaction of the session matched by
date, description and value within 0.01 - all of them when several match -
and leaves every non-matching row, every other column of matched rows, and
the session table unchanged. -/
theorem c6_update_transaction_category (db : AcctDB)
    (sid date desc : PyStr) (value : ℚ) (cat note : PyStr) :
    (update_transaction_category db sid date desc value cat note).sessions = db.sessions ∧
    (update_transaction_category db sid date desc value cat note).transactions.length =
      db.transactions.length ∧
    (∀ i : Nat,
      (update_transaction_category db sid date desc value cat note).transactions.get? i =
        (db.transactions.get? i).map (fun r =>
          if r.session_id = sid ∧ r.date = date ∧ r.description = desc ∧
              (|r.value - value| < 1/100) then
            { r with category := cat, note := note,
                     categorization_method := pys "user" }
          else r)) ∧
    (∀ i : Nat, ∀ r r2 : TxnRow,
      db.transactions.get? i = some r →
      (update_transaction_category db sid date desc value cat note).transactions.get? i = some r2 →
      r2.id = r.id ∧ r2.session_id = r.session_id ∧ r2.date = r.date ∧
      r2.description = r.description ∧ r2.value = r.value ∧ r2.type = r.type ∧
      r2.section_label = r.section_label ∧ r2.row_index = r.row_index ∧
      r2.original_notes = r.original_notes) := by
  have hcond : ∀ r : TxnRow,
      (r.session_id = sid ∧ r.date = date ∧ r.description = desc ∧
        absLtHundredth r.value value = true) ↔
      (r.session_id = sid ∧ r.date = date ∧ r.description = desc ∧
        (|r.value - value| < 1/100)) := by
    intro r
    rw [absLtHundredth_iff]
  refine ⟨rfl, by simp [update_transaction_category], ?_, ?_⟩
  · intro i
    simp only [update_transaction_category, List.get?_map]
    cases db.transactions.get? i with
    | none => rfl
    | some r =>
        simp only [Option.map_some']
        by_cases h : r.session_id = sid ∧ r.date = date ∧ r.description = desc ∧
            absLtHundredth r.value value = true
        · rw [if_pos h, if_pos ((hcond r).mp h)]
        · rw [if_neg h, if_neg (fun hc => h ((hcond r).mpr hc))]
  · intro i r r2 hr hr2
    rw [update_transaction_category] at hr2
    simp only [List.get?_map, hr, Option.map_some'] at hr2
    by_cases h : r.session_id = sid ∧ r.date = date ∧ r.description = desc ∧
        absLtHundredth r.value value = true
    · rw [if_pos h] at hr2
      cases hr2
      exact ⟨rfl, rfl, rfl, rfl, rfl, rfl, rfl, rfl, rfl⟩
    · rw [if_neg h] at hr2
      cases hr2
      exact ⟨rfl, rfl, rfl, rfl, rfl, rfl, rfl, rfl, rfl⟩

/-- A stored transaction row of session s. -/
def c6rowA : TxnRow :=
  { id := 1, session_id := pys "s", date := pys "2025-01-01",
    description := pys "dup", value := 1, type := pys "debit",
    section_label := pys "debit_bank", category := pys "old", note := [],
    categorization_method := pys "rule", row_index := 0, original_notes := [] }

/-- A second stored row of the same session with the same date,
description and value as the first (distinct id). -/
def c6rowB : TxnRow :=
  { c6rowA with id := 2 }

/-- Database with the two duplicate rows. -/
def c6db : AcctDB :=
  { sessions := [], transactions := [c6rowA, c6rowB], next_txn_id := 3, clock := 0 }

/-- C6 counterexample to the claim as stated: with two stored transactions
of the session sharing date, description and value, the update touches
both rows, not exactly one. -/
theorem c6_counterexample :
    c6rowA.date = c6rowB.date ∧ c6rowA.description = c6rowB.description ∧
    c6rowA.value = c6rowB.value ∧ c6rowA.id ≠ c6rowB.id ∧
    c6db.transactions.map (fun r => r.categorization_method) =
      [pys "rule", pys "rule"] ∧
    (update_transaction_category c6db (pys "s") (pys "2025-01-01") (pys "dup") 1
        (pys "newcat") (pys "nn")).transactions.map (fun r => r.categorization_method) =
      [pys "user", pys "user"] := by
  exact ⟨rfl, rfl, rfl, by decide, by decide, by decide⟩

/-- The first duplicate row after the update. -/
def c6rowA2 : TxnRow :=
  { c6rowA with category := pys "newcat", note := pys "nn",
                categorization_method := pys "user" }

/-- C6 witness: the frame part of the amended theorem at row index zero of
the duplicate-row database, the two get hypotheses discharged on concrete
rows. -/
theorem c6_witness :
    c6rowA2.id = c6rowA.id ∧ c6rowA2.session_id = c6rowA.session_id ∧
    c6rowA2.date = c6rowA.date ∧ c6rowA2.description = c6rowA.description ∧
    c6rowA2.value = c6rowA.value ∧ c6rowA2.type = c6rowA.type ∧
    c6rowA2.section_label = c6rowA.section_label ∧
    c6rowA2.row_index = c6rowA.row_index ∧
    c6rowA2.original_notes = c6rowA.original_notes :=
  (c6_update_transaction_category c6db (pys "s") (pys "2025-01-01") (pys "dup") 1
    (pys "newcat") (pys "nn")).2.2.2 0 c6rowA c6rowA2 rfl (by decide)

/-! ## Selection of the latest active session -/

lemma pickLater_isSome (acc : Option SessionRow) (s : SessionRow) :
    ∃ b, pickLater acc s = some b := by
  cases acc with
  | none => exact ⟨s, rfl⟩
  | some a =>
      by_cases h : a.created_at < s.created_at
      · exact ⟨s, by simp [pickLater, h]⟩
      · exact ⟨a, by simp [pickLater, h]⟩

lemma foldl_pickLater_none (l : List SessionRow) :
    ∀ acc, l.foldl pickLater acc = none → acc = none ∧ l = [] := by
  induction l with
  | nil => intro acc h; exact ⟨h, rfl⟩
  | cons s t ih =>
      intro acc h
      rw [List.foldl_cons] at h
      obtain ⟨hpick, -⟩ := ih _ h
      obtain ⟨b, hb⟩ := pickLater_isSome acc s
      rw [hb] at hpick
      cases hpick

lemma foldl_pickLater_some (l : List SessionRow) :
    ∀ (acc : Option SessionRow) (x : SessionRow), l.foldl pickLater acc = some x →
      (acc = some x ∨ x ∈ l) ∧ (∀ y ∈ l, y.created_at ≤ x.created_at) ∧
      (∀ b, acc = some b → b.created_at ≤ x.created_at) := by
  induction l with
  | nil =>
      intro acc x h
      refine ⟨Or.inl h, by simp, ?_⟩
      intro b hb
      rw [hb] at h
      cases h
      exact le_refl _
  | cons s t ih =>
      intro acc x h
      rw [List.foldl_cons] at h
      obtain ⟨hmem, hall, hacc⟩ := ih _ _ h
      have hs_le : s.created_at ≤ x.created_at := by
        cases acc with
        | none => exact hacc s rfl
        | some a =>
            by_cases hlt : a.created_at < s.created_at
            · exact hacc s (by simp [pickLater, hlt])
            · have ha : a.created_at ≤ x.created_at := hacc a (by simp [pickLater, hlt])
              omega
      refine ⟨?_, ?_, ?_⟩
      · rcases hmem with hp | hin
        · cases acc with
          | none =>
              simp only [pickLater] at hp
              cases hp
              exact Or.inr (List.mem_cons_self _ _)
          | some a =>
              by_cases hlt : a.created_at < s.created_at
              · simp only [pickLater, if_pos hlt] at hp
                cases hp
                exact Or.inr (List.mem_cons_self _ _)
              · simp only [pickLater, if_neg hlt] at hp
                exact Or.inl hp
        · exact Or.inr (List.mem_cons_of_mem _ hin)
      · intro y hy
        rcases List.mem_cons.mp hy with rfl | hyt
        · exact hs_le
        · exact hall y hyt
      · intro b hb
        cases acc with
        | none => cases hb
        | some a =>
            cases hb
            by_cases hlt : b.created_at < s.created_at
            · omega
            · exact hacc b (by simp [pickLater, hlt])

lemma latestActive_spec (sessions : List SessionRow) (x : SessionRow)
    (h : latestActive sessions = some x) :
    x ∈ sessions ∧ x.status = pys "active" ∧
    ∀ y ∈ sessions, y.status = pys "active" → y.created_at ≤ x.created_at := by
  obtain ⟨hmem, hall, -⟩ := foldl_pickLater_some _ _ _ h
  rcases hmem with hp | hin
  · cases hp
  · have hx := List.mem_filter.mp hin
    refine ⟨hx.1, by simpa using hx.2, ?_⟩
    intro y hy hys
    exact hall y (List.mem_filter.mpr ⟨hy, by simpa using hys⟩)

lemma latestActive_none_of_no_active (sessions : List SessionRow)
    (h : ∀ s ∈ sessions, s.status ≠ pys "active") : latestActive sessions = none := by
  rw [latestActive, List.filter_eq_nil.mpr ?_]
  · rfl
  · intro s hs
    simpa using h s hs

lemma foldl_pickLater_append_strict (s : SessionRow) (fl : List SessionRow) :
    ∀ acc : Option SessionRow, (∀ y ∈ fl, y.created_at < s.created_at) →
      (∀ b, acc = some b → b.created_at < s.created_at) →
      (fl ++ [s]).foldl pickLater acc = some s := by
  induction fl with
  | nil =>
      intro acc hfl hacc
      cases acc with
      | none => rfl
      | some a =>
          have := hacc a rfl
          simp [pickLater, this]
  | cons y t ih =>
      intro acc hfl hacc
      rw [List.cons_append, List.foldl_cons]
      apply ih
      · intro z hz
        exact hfl z (List.mem_cons_of_mem _ hz)
      · intro b hb
        cases acc with
        | none =>
            simp only [pickLater] at hb
            cases hb
            exact hfl y (List.mem_cons_self _ _)
        | some a =>
            by_cases hlt : a.created_at < y.created_at
            · simp only [pickLater, if_pos hlt] at hb
              cases hb
              exact hfl y (List.mem_cons_self _ _)
            · simp only [pickLater, if_neg hlt] at hb
              cases hb
              exact hacc b rfl

lemma latestActive_last (l : List SessionRow) (s : SessionRow)
    (hs : s.status = pys "active")
    (hmax : ∀ y ∈ l, y.created_at < s.created_at) :
    latestActive (l ++ [s]) = some s := by
  rw [latestActive, List.filter_append]
  have hfs : List.filter (fun r => decide (r.status = pys "active")) [s] = [s] := by
    simp [hs]
  rw [hfs]
  apply foldl_pickLater_append_strict
  · intro y hy
    exact hmax y (List.mem_of_mem_filter hy)
  · intro b hb
    cases hb

/-! ## C3 and C10: which sessions load_latest_session resumes -/

/-- C3 (amended): load_latest_session retrieves the most recently created
session whose status is the string active, rebuilding its result and a
pending-review list of the currently-unknown transactions; it returns none
when no active session exists (in particular a stored status of processing
never qualifies) and also when the selected session has no stored
transaction rows. -/
theorem c3_load_latest_session (db : AcctDB) :
    ((∀ s ∈ db.sessions, s.status ≠ pys "active") → load_latest_session db = none) ∧
    (∀ sd, load_latest_session db = some sd →
      ∃ s ∈ db.sessions, s.status = pys "active" ∧ sd.id = s.id ∧
        (∀ s2 ∈ db.sessions, s2.status = pys "active" →
          s2.created_at ≤ s.created_at) ∧
        sd.pending_review =
          sd.result.all_transactions.filter (fun t => t.confidence = pys "unknown")) := by
  constructor
  · intro h
    rw [load_latest_session, latestActive_none_of_no_active db.sessions h]
  · intro sd hsd
    rw [load_latest_session] at hsd
    cases hla : latestActive db.sessions with
    | none => rw [hla] at hsd; cases hsd
    | some row =>
        simp only [hla] at hsd
        obtain ⟨hmem, hact, hmax⟩ := latestActive_spec db.sessions row hla
        by_cases hemp : List.insertionSort (fun (a b : TxnRow) => a.id ≤ b.id)
            (db.transactions.filter (fun r => r.session_id = row.id)) = []
        · rw [if_pos hemp] at hsd
          cases hsd
        · rw [if_neg hemp] at hsd
          refine ⟨row, hmem, hact, ?_, hmax, ?_⟩
          · cases hsd
            rfl
          · cases hsd
            rfl

/-- A session stored with status processing (as save_session creates). -/
def c3P : SessionRow :=
  { id := pys "p", filename := pys "f.pdf", status := pys "processing",
    created_at := 0 }

/-- A stored transaction row belonging to that processing session. -/
def c3row : TxnRow :=
  { id := 1, session_id := pys "p", date := pys "2025-01-01",
    description := pys "x", value := 1, type := pys "debit",
    section_label := pys "debit_bank", category := [], note := [],
    categorization_method := [], row_index := 0, original_notes := [] }

/-- Database whose only session is a non-complete processing session with
stored transactions. -/
def c3db : AcctDB :=
  { sessions := [c3P], transactions := [c3row], next_txn_id := 2, clock := 1 }

/-- C3 counterexample to the claim as stated: the only stored session has
status processing - not complete - and has transaction rows, yet
load_latest_session returns none, because the query selects status active
only. -/
theorem c3_counterexample :
    c3P ∈ c3db.sessions ∧ c3P.status = pys "processing" ∧
    c3P.status ≠ pys "complete" ∧
    c3db.transactions.filter (fun r => r.session_id = c3P.id) ≠ [] ∧
    load_latest_session c3db = none := by
  exact ⟨by decide, rfl, by decide, by decide, by decide⟩

/-- C3 witness: the no-active-session conjunct of the amended theorem at
the empty database. -/
theorem c3_witness : load_latest_session db0 = none :=
  (c3_load_latest_session db0).1 (by decide)

/-- C10 (amended): when the most recently created session with status
active has no stored transaction rows, load_latest_session returns none -
at the public load interface such a session is indistinguishable from
there being no active session at all. -/
theorem c10_empty_active_session (db : AcctDB) (row : SessionRow)
    (h1 : latestActive db.sessions = some row)
    (h2 : db.transactions.filter (fun r => r.session_id = row.id) = []) :
    load_latest_session db = none := by
  rw [load_latest_session]
  simp only [h1, h2]
  rfl

/-- An older active session that does own a stored transaction row. -/
def c10A : SessionRow :=
  { id := pys "a", filename := pys "f.pdf", status := pys "active",
    created_at := 0 }

/-- A newer processing (hence non-complete) session with no stored rows. -/
def c10P : SessionRow :=
  { id := pys "p", filename := pys "g.pdf", status := pys "processing",
    created_at := 1 }

/-- The stored row of the older active session. -/
def c10row : TxnRow :=
  { id := 1, session_id := pys "a", date := pys "2025-01-01",
    description := pys "x", value := 1, type := pys "debit",
    section_label := pys "debit_bank", category := [], note := [],
    categorization_method := [], row_index := 0, original_notes := [] }

/-- Database where the most recently created non-complete session (the
processing one) has zero stored rows, while an older active session has
rows. -/
def c10db : AcctDB :=
  { sessions := [c10A, c10P], transactions := [c10row], next_txn_id := 2,
    clock := 2 }

/-- C10 counterexample to the claim as stated: the most recently created
non-complete session has zero stored transaction rows, yet
load_latest_session does not return none - it resumes the older active
session instead. -/
theorem c10_counterexample :
    c10P.status ≠ pys "complete" ∧
    (∀ s ∈ c10db.sessions, s.status ≠ pys "complete" →
      s.created_at ≤ c10P.created_at) ∧
    c10db.transactions.filter (fun r => r.session_id = c10P.id) = [] ∧
    load_latest_session c10db ≠ none := by
  exact ⟨by decide, by decide, by decide, by decide⟩

/-- A database holding one active session and no transaction rows. -/
def c10dbW : AcctDB :=
  { sessions := [c10A], transactions := [], next_txn_id := 1, clock := 1 }

/-- C10 witness: the amended theorem on a database holding one active
session without rows, both hypotheses discharged by evaluation. -/
theorem c10_witness : load_latest_session c10dbW = none :=
  c10_empty_active_session c10dbW c10A (by decide) (by decide)

/-! ## C2: machinery for the save / load round trip -/

/-- The effect of one save-then-load round trip on a transaction: an
empty-string category or note collapses to absent, an empty confidence
reloads as unknown; everything else is preserved. -/
def roundTxn (t : Transaction) : Transaction :=
  { t with
    category := if t.category.getD [] = [] then none else some (t.category.getD []),
    note := if t.note.getD [] = [] then none else some (t.note.getD []),
    confidence := if t.confidence = [] then pys "unknown" else t.confidence }

lemma txnOfRow_txnRowOf (sid : PyStr) (rid : Nat) (sec : PyStr) (t : Transaction) :
    txnOfRow (txnRowOf sid rid sec t) = roundTxn t := rfl

lemma insertRows_session_id (sid : PyStr) :
    ∀ (l : List (PyStr × Transaction)) (n : Nat) (r : TxnRow),
      r ∈ insertRows sid n l → r.session_id = sid := by
  intro l
  induction l with
  | nil => intro n r h; cases h
  | cons p rest ih =>
      intro n r h
      obtain ⟨sec, t⟩ := p
      rcases List.mem_cons.mp h with rfl | hin
      · rfl
      · exact ih (n + 1) r hin

lemma insertRows_id_ge (sid : PyStr) :
    ∀ (l : List (PyStr × Transaction)) (n : Nat) (r : TxnRow),
      r ∈ insertRows sid n l → n ≤ r.id := by
  intro l
  induction l with
  | nil => intro n r h; cases h
  | cons p rest ih =>
      intro n r h
      obtain ⟨sec, t⟩ := p
      rcases List.mem_cons.mp h with rfl | hin
      · exact le_refl _
      · have := ih (n + 1) r hin
        omega

lemma insertRows_pairwise (sid : PyStr) :
    ∀ (l : List (PyStr × Transaction)) (n : Nat),
      (insertRows sid n l).Pairwise (fun a b => a.id < b.id) := by
  intro l
  induction l with
  | nil => intro n; exact List.Pairwise.nil
  | cons p rest ih =>
      intro n
      obtain ⟨sec, t⟩ := p
      refine List.pairwise_cons.mpr ⟨?_, ih (n + 1)⟩
      intro r hr
      have := insertRows_id_ge sid rest (n + 1) r hr
      simp only [txnRowOf]
      omega

lemma insertRows_length (sid : PyStr) :
    ∀ (l : List (PyStr × Transaction)) (n : Nat),
      (insertRows sid n l).length = l.length := by
  intro l
  induction l with
  | nil => intro n; rfl
  | cons p rest ih =>
      intro n
      obtain ⟨sec, t⟩ := p
      simp [insertRows, ih]

lemma insertRows_append (sid : PyStr) :
    ∀ (l1 l2 : List (PyStr × Transaction)) (n : Nat),
      insertRows sid n (l1 ++ l2) =
        insertRows sid n l1 ++ insertRows sid (n + l1.length) l2 := by
  intro l1
  induction l1 with
  | nil => intro l2 n; simp [insertRows]
  | cons p rest ih =>
      intro l2 n
      obtain ⟨sec, t⟩ := p
      simp only [List.cons_append, insertRows, List.length_cons]
      rw [show rest.append l2 = rest ++ l2 from rfl, ih,
          show n + (rest.length + 1) = n + 1 + rest.length by omega]

lemma groupRows_eq (rows : List TxnRow) :
    groupRows rows =
      ((rows.filter (fun r => r.section_label = pys "debit_bank")).map txnOfRow,
       (rows.filter (fun r => r.section_label = pys "credit_bank")).map txnOfRow,
       (rows.filter (fun r => r.section_label = pys "debit_company")).map txnOfRow,
       (rows.filter (fun r => r.section_label = pys "credit_company")).map txnOfRow) := by
  induction rows with
  | nil => rfl
  | cons tr rest ih =>
      simp only [groupRows, ih, List.filter_cons, decide_eq_true_eq]
      by_cases h1 : tr.section_label = pys "debit_bank"
      · have h2 : ¬ tr.section_label = pys "credit_bank" := by rw [h1]; decide
        have h3 : ¬ tr.section_label = pys "debit_company" := by rw [h1]; decide
        have h4 : ¬ tr.section_label = pys "credit_company" := by rw [h1]; decide
        simp only [if_pos h1, if_neg h2, if_neg h3, if_neg h4, List.map_cons]
      · by_cases h2 : tr.section_label = pys "credit_bank"
        · have h3 : ¬ tr.section_label = pys "debit_company" := by rw [h2]; decide
          have h4 : ¬ tr.section_label = pys "credit_company" := by rw [h2]; decide
          simp only [if_neg h1, if_pos h2, if_neg h3, if_neg h4, List.map_cons]
        · by_cases h3 : tr.section_label = pys "debit_company"
          · have h4 : ¬ tr.section_label = pys "credit_company" := by rw [h3]; decide
            simp only [if_neg h1, if_neg h2, if_pos h3, if_neg h4, List.map_cons]
          · by_cases h4 : tr.section_label = pys "credit_company"
            · simp only [if_neg h1, if_neg h2, if_neg h3, if_pos h4, List.map_cons]
            · simp only [if_neg h1, if_neg h2, if_neg h3, if_neg h4]

lemma insertRows_map_label (sid sec : PyStr) (l : List Transaction) :
    ∀ (n : Nat) (r : TxnRow),
      r ∈ insertRows sid n (l.map (fun t => (sec, t))) → r.section_label = sec := by
  induction l with
  | nil => intro n r h; cases h
  | cons t rest ih =>
      intro n r h
      rcases List.mem_cons.mp h with rfl | hin
      · rfl
      · exact ih (n + 1) r hin

lemma insertRows_map_txnOfRow (sid sec : PyStr) (l : List Transaction) :
    ∀ n : Nat,
      (insertRows sid n (l.map (fun t => (sec, t)))).map txnOfRow = l.map roundTxn := by
  induction l with
  | nil => intro n; rfl
  | cons t rest ih =>
      intro n
      simp only [List.map_cons, insertRows, txnOfRow_txnRowOf, ih]

lemma filter_label_same (sid sec : PyStr) (l : List Transaction) (n : Nat) :
    (insertRows sid n (l.map (fun t => (sec, t)))).filter
        (fun r => r.section_label = sec) =
      insertRows sid n (l.map (fun t => (sec, t))) := by
  apply List.filter_eq_self.mpr
  intro r hr
  simp [insertRows_map_label sid sec l n r hr]

lemma filter_label_other (sid sec target : PyStr) (hne : sec ≠ target)
    (l : List Transaction) (n : Nat) :
    (insertRows sid n (l.map (fun t => (sec, t)))).filter
        (fun r => r.section_label = target) = [] := by
  apply List.filter_eq_nil.mpr
  intro r hr
  simp [insertRows_map_label sid sec l n r hr, hne]

lemma groupRows_insertRows (sid : PyStr) (result : ReconciliationResult) (n : Nat) :
    groupRows (insertRows sid n (sectionedTxns result)) =
      (result.debit_transactions.map roundTxn,
       result.credit_transactions.map roundTxn,
       result.company_debits.map roundTxn,
       result.company_credits.map roundTxn) := by
  rw [groupRows_eq, sectionedTxns,
      insertRows_append sid, insertRows_append sid, insertRows_append sid]
  simp only [List.filter_append, List.map_append]
  rw [filter_label_same sid (pys "debit_bank") result.debit_transactions,
      filter_label_same sid (pys "credit_bank") result.credit_transactions,
      filter_label_same sid (pys "debit_company") result.company_debits,
      filter_label_same sid (pys "credit_company") result.company_credits,
      filter_label_other sid (pys "debit_bank") (pys "credit_bank") (by decide),
      filter_label_other sid (pys "debit_bank") (pys "debit_company") (by decide),
      filter_label_other sid (pys "debit_bank") (pys "credit_company") (by decide),
      filter_label_other sid (pys "credit_bank") (pys "debit_bank") (by decide),
      filter_label_other sid (pys "credit_bank") (pys "debit_company") (by decide),
      filter_label_other sid (pys "credit_bank") (pys "credit_company") (by decide),
      filter_label_other sid (pys "debit_company") (pys "debit_bank") (by decide),
      filter_label_other sid (pys "debit_company") (pys "credit_bank") (by decide),
      filter_label_other sid (pys "debit_company") (pys "credit_company") (by decide),
      filter_label_other sid (pys "credit_company") (pys "debit_bank") (by decide),
      filter_label_other sid (pys "credit_company") (pys "credit_bank") (by decide),
      filter_label_other sid (pys "credit_company") (pys "debit_company") (by decide)]
  simp only [List.map_nil, List.append_nil, List.nil_append,
    insertRows_map_txnOfRow]

lemma sectionedTxns_length (result : ReconciliationResult) :
    (sectionedTxns result).length = result.all_transactions.length := by
  simp [sectionedTxns, ReconciliationResult.all_transactions]

lemma save_full_session_sessions (db : AcctDB) (sid fn : PyStr)
    (result : ReconciliationResult) (ci rc : Int) :
    (save_full_session db sid fn result ci rc).sessions =
      db.sessions.filter (fun s => s.id ≠ sid) ++
        [savedSessionRow db sid fn result ci rc] := rfl

lemma save_full_session_transactions (db : AcctDB) (sid fn : PyStr)
    (result : ReconciliationResult) (ci rc : Int) :
    (save_full_session db sid fn result ci rc).transactions =
      db.transactions.filter (fun r => r.session_id ≠ sid) ++
        insertRows sid db.next_txn_id (sectionedTxns result) := rfl

lemma save_full_session_latestActive (db : AcctDB) (sid fn : PyStr)
    (result : ReconciliationResult) (ci rc : Int) (hwf : db.WF) :
    latestActive (save_full_session db sid fn result ci rc).sessions =
      some (savedSessionRow db sid fn result ci rc) := by
  rw [save_full_session_sessions]
  apply latestActive_last
  · rfl
  · intro y hy
    exact hwf.2.2.1 y (List.mem_of_mem_filter hy)

lemma save_full_session_txn_filter (db : AcctDB) (sid fn : PyStr)
    (result : ReconciliationResult) (ci rc : Int) :
    (save_full_session db sid fn result ci rc).transactions.filter
        (fun r => r.session_id = (savedSessionRow db sid fn result ci rc).id) =
      insertRows sid db.next_txn_id (sectionedTxns result) := by
  rw [save_full_session_transactions, List.filter_append]
  have h1 : (db.transactions.filter (fun r => r.session_id ≠ sid)).filter
      (fun r => r.session_id = (savedSessionRow db sid fn result ci rc).id) = [] := by
    apply List.filter_eq_nil.mpr
    intro r hr
    have h := List.mem_filter.mp hr
    simp only [decide_eq_true_eq] at h ⊢
    exact h.2
  have h2 : (insertRows sid db.next_txn_id (sectionedTxns result)).filter
      (fun r => r.session_id = (savedSessionRow db sid fn result ci rc).id) =
      insertRows sid db.next_txn_id (sectionedTxns result) := by
    apply List.filter_eq_self.mpr
    intro r hr
    simp only [decide_eq_true_eq]
    exact insertRows_session_id sid (sectionedTxns result) db.next_txn_id r hr
  rw [h1, h2, List.nil_append]

lemma insertRows_sorted_id (sid : PyStr) (l : List (PyStr × Transaction)) (n : Nat) :
    List.insertionSort (fun (a b : TxnRow) => a.id ≤ b.id) (insertRows sid n l) =
      insertRows sid n l := by
  apply List.Sorted.insertionSort_eq
  exact (insertRows_pairwise sid l n).imp (fun h => Nat.le_of_lt h)

lemma roundTxn_category (t : Transaction) (h : t.category ≠ some []) :
    (roundTxn t).category = t.category := by
  cases hc : t.category with
  | none => simp [roundTxn, hc]
  | some c =>
      have : c ≠ [] := by
        intro he
        exact h (by rw [hc, he])
      simp [roundTxn, hc, this]

lemma roundTxn_note (t : Transaction) (h : t.note ≠ some []) :
    (roundTxn t).note = t.note := by
  cases hc : t.note with
  | none => simp [roundTxn, hc]
  | some c =>
      have : c ≠ [] := by
        intro he
        exact h (by rw [hc, he])
      simp [roundTxn, hc, this]

/-- C2 (amended): saving a full session and then loading the latest
session round-trips the data with these provisos: when the result has no
transactions at all the load returns none rather than an empty result;
otherwise the reloaded groups are the original groups transaction-wise
mapped through the reload normalisation, which preserves the total count
and preserves category and note for every transaction whose category and
note are not the empty string (an empty-string category or note reloads as
absent, and an empty confidence reloads as unknown). -/
theorem c2_save_load_round_trip (db : AcctDB) (sid fn : PyStr)
    (result : ReconciliationResult) (ci rc : Int) (hwf : db.WF) :
    (result.all_transactions = [] →
      load_latest_session (save_full_session db sid fn result ci rc) = none) ∧
    (result.all_transactions ≠ [] →
      ∃ sd, load_latest_session (save_full_session db sid fn result ci rc) = some sd ∧
        sd.result.debit_transactions = result.debit_transactions.map roundTxn ∧
        sd.result.credit_transactions = result.credit_transactions.map roundTxn ∧
        sd.result.company_debits = result.company_debits.map roundTxn ∧
        sd.result.company_credits = result.company_credits.map roundTxn ∧
        sd.result.all_transactions = result.all_transactions.map roundTxn ∧
        sd.result.all_transactions.length = result.all_transactions.length ∧
        (∀ t : Transaction, t.category ≠ some [] → (roundTxn t).category = t.category) ∧
        (∀ t : Transaction, t.note ≠ some [] → (roundTxn t).note = t.note)) := by
  have hla := save_full_session_latestActive db sid fn result ci rc hwf
  have hfil := save_full_session_txn_filter db sid fn result ci rc
  constructor
  · intro hemp
    rw [load_latest_session]
    simp only [hla, hfil]
    have hsec : sectionedTxns result = [] := by
      have hl := sectionedTxns_length result
      rw [hemp] at hl
      exact List.length_eq_zero.mp (by simpa using hl)
    rw [hsec]
    rfl
  · intro hne
    rw [load_latest_session]
    simp only [hla, hfil, insertRows_sorted_id]
    have hnil : insertRows sid db.next_txn_id (sectionedTxns result) ≠ [] := by
      intro he
      apply hne
      have hl := insertRows_length sid (sectionedTxns result) db.next_txn_id
      rw [he] at hl
      simp only [List.length_nil] at hl
      have hl2 := sectionedTxns_length result
      apply List.length_eq_zero.mp
      omega
    rw [if_neg hnil]
    refine ⟨_, rfl, ?_, ?_, ?_, ?_, ?_, ?_, roundTxn_category, roundTxn_note⟩
    · simp only [groupRows_insertRows]
    · simp only [groupRows_insertRows]
    · simp only [groupRows_insertRows]
    · simp only [groupRows_insertRows]
    · simp only [ReconciliationResult.all_transactions, groupRows_insertRows,
        List.map_append]
    · simp only [ReconciliationResult.all_transactions, groupRows_insertRows,
        List.map_append, List.length_append, List.length_map]

/-- A user-categorised transaction whose category is the empty string. -/
def c2txn : Transaction :=
  { date := pys "2025-01-01", description := pys "x", value := 1,
    type := pys "debit", row_index := 0, category := some [],
    note := some (pys "a note"), confidence := pys "user" }

/-- A result with that single categorised transaction. -/
def c2resX : ReconciliationResult :=
  { filename := pys "f.pdf", bank_balance := none, reconciled_balance := none,
    company_balance := none, difference := none,
    debit_transactions := [c2txn] }

/-- A result with no transactions at all. -/
def c2resE : ReconciliationResult :=
  { filename := pys "f.pdf", bank_balance := none, reconciled_balance := none,
    company_balance := none, difference := none }

/-- C2 counterexample to the claim as stated: a transaction with
confidence user and category equal to the empty string reloads with no
category at all (empty string does not survive the trip), and a saved
result with zero transactions reloads as none rather than as a result
with matching (zero) transaction count. -/
theorem c2_counterexample :
    c2txn.confidence ≠ pys "unknown" ∧
    c2txn.category = some [] ∧
    (load_latest_session (save_full_session db0 (pys "s") (pys "f.pdf") c2resX 0 0)).map
        (fun sd => sd.result.all_transactions.map (fun t => t.category)) =
      some [none] ∧
    c2resX.all_transactions.map (fun t => t.category) = [some []] ∧
    load_latest_session (save_full_session db0 (pys "e") (pys "f.pdf") c2resE 0 0) =
      none := by
  exact ⟨by decide, rfl, by decide, rfl, by decide⟩

/-- C2 witness: the nonempty case of the round-trip theorem on the empty
well-formed database and a one-transaction result. -/
theorem c2_witness :
    ∃ sd, load_latest_session (save_full_session db0 (pys "s") (pys "f.pdf") c2resX 0 0) =
        some sd ∧
      sd.result.debit_transactions = c2resX.debit_transactions.map roundTxn ∧
      sd.result.credit_transactions = c2resX.credit_transactions.map roundTxn ∧
      sd.result.company_debits = c2resX.company_debits.map roundTxn ∧
      sd.result.company_credits = c2resX.company_credits.map roundTxn ∧
      sd.result.all_transactions = c2resX.all_transactions.map roundTxn ∧
      sd.result.all_transactions.length = c2resX.all_transactions.length ∧
      (∀ t : Transaction, t.category ≠ some [] → (roundTxn t).category = t.category) ∧
      (∀ t : Transaction, t.note ≠ some [] → (roundTxn t).note = t.note) :=
  (c2_save_load_round_trip db0 (pys "s") (pys "f.pdf") c2resX 0 0
    (by constructor <;> simp [AcctDB.WF, db0])).2 (by decide)

end TaskBot
